import Mathlib

/-
Verification of the TroutAWK command-line driver (main.go) against its
specification.

The driver is shallowly embedded: byte strings are `List Nat` (each entry a
byte value 0..255), command-line strings are Lean `String`, fallible steps
return `Option` or `Except`, and the post-parse profiling/execution phase of
`main` is modelled as the list of observable events it performs, in order.
-/

set_option maxRecDepth 10000

/-! ## Byte-string helpers -/

/-- UTF-8 encoding of a single character, as a list of byte values. -/
def charUTF8 (c : Char) : List Nat :=
  let n := c.toNat
  if n < 0x80 then [n]
  else if n < 0x800 then [0xC0 + n / 0x40, 0x80 + n % 0x40]
  else if n < 0x10000 then
    [0xE0 + n / 0x1000, 0x80 + (n / 0x40) % 0x40, 0x80 + n % 0x40]
  else
    [0xF0 + n / 0x40000, 0x80 + (n / 0x1000) % 0x40,
     0x80 + (n / 0x40) % 0x40, 0x80 + n % 0x40]

/-- The bytes of a Lean string (Go strings are byte sequences). -/
def bs (s : String) : List Nat := s.toList.flatMap charUTF8

/-! ## Source assembly (main.go lines 45-77)

With `-f` files, main reads each program file in order into one buffer and
appends a single newline byte after each fragment; a failed read aborts via
`errorExit`.  A read result is `Option (List Nat)`: `none` models a failed
open/read. -/

/-- `assembleSource reads` models the `-f` accumulation loop: each
successfully read fragment is appended to the buffer followed by one newline
byte (value 10); the first failed read aborts the whole assembly. -/
def assembleSource : List (Option (List Nat)) → Option (List Nat)
  | [] => some []
  | none :: _ => none
  | some f :: rest => (assembleSource rest).map (fun r => f ++ 10 :: r)

/-- Source-selection logic of `main`: if any `-f` program files were given,
assemble them and keep all positional arguments; otherwise the first
positional argument is the program text (taken verbatim, no newline added)
and the rest are the AWK program's arguments.  `none` models `errorExit`
(usage error on missing program, or a failed program-file read). -/
def selectSource (progFileReads : List (Option (List Nat))) (args : List String) :
    Option (List Nat × List String) :=
  if progFileReads.length > 0 then
    (assembleSource progFileReads).map (fun srcBytes => (srcBytes, args))
  else
    match args with
    | [] => none
    | a :: rest => some (bs a, rest)

/-! ## Fatal errors (`errorExit`, main.go lines 189-192) -/

/-- A fatal driver error: the message printed to stderr and the process exit
code.  `errorExit` always exits with code 1. -/
structure Fatal where
  msg : String
  code : Nat
deriving DecidableEq

/-- `errorExit` prints its message and exits with code 1. -/
def errorExit (msg : String) : Fatal := ⟨msg, 1⟩

deriving instance DecidableEq for Except

/-! ## `-v` assignments and the interpreter configuration
(main.go lines 106-128) -/

/-- The characters of a string (a stable alias, so that rewriting is not
disturbed by definitional unfolding of `String.toList`). -/
def strChars (s : String) : List Char := s.toList

/-- `strings.SplitN s "=" 2` on the characters of `s`: a one-element list
`[s]` when `s` has no `=`, otherwise the part before the first `=` and the
whole remainder after it. -/
def splitN2 : List Char → List (List Char)
  | [] => [[]]
  | c :: rest =>
    if c = '=' then [[], rest]
    else
      match splitN2 rest with
      | [] => [[c]]
      | s :: ss => (c :: s) :: ss

/-- The `-v` processing loop: each value is split on the first `=` into
exactly two parts, appended (name then value) to the flat variable list; a
value that does not split into two parts aborts via `errorExit`. -/
def buildVarsAux : List String → Except Fatal (List String)
  | [] => .ok []
  | v :: rest =>
    match splitN2 (strChars v) with
    | [name, value] =>
      (buildVarsAux rest).map
        (fun r => String.mk name :: String.mk value :: r)
    | _ => .error (errorExit "-v flag must be in format name=value")

/-- `filepath.Base` for Unix paths, as used for `Argv0`. -/
def baseName (p : String) : String :=
  if p = "" then "."
  else
    let cs := (p.toList.reverse.dropWhile (fun c => c == '/')).reverse
    let cs2 := (cs.reverse.takeWhile (fun c => c != '/')).reverse
    if cs2 = [] then "/" else String.mk cs2

/-- Names of the built-in functions injected into the parse-time
configuration (`parserConfig.Funcs` map literal, main.go lines 83-93). -/
def parserFuncNames : List String := ["sum", "repeat", "isodate"]

/-- Names of the built-in functions injected into the execution-time
configuration (`config.Funcs` map literal, main.go lines 110-120). -/
def interpFuncNames : List String := ["sum", "repeat", "isodate"]

/-- The parse-time configuration (`parser.ParserConfig`) as far as the
claims observe it: the debug-types flag and the built-in function names.
(The `DebugWriter` stderr sink and the function bodies are not modelled.) -/
structure ParserCfg where
  debugTypes : Bool
  funcs : List String
deriving DecidableEq

/-- The `parserConfig` literal of main.go lines 80-94. -/
def mkParserConfig (debugTypes : Bool) : ParserCfg :=
  { debugTypes := debugTypes, funcs := parserFuncNames }

/-- The execution-time configuration (`interp.Config`) as far as the claims
observe it.  `vars` is the flat alternating name/value list exactly as in
the Go `[]string`.  `stdin` models the external struct's standard-input
override field (`Stdin`): a Go composite literal leaves every unmentioned
field at its zero value, so a driver that never assigns it leaves it `none`. -/
structure InterpCfg where
  argv0 : String
  args : List String
  vars : List String
  funcs : List String
  stdin : Option String
deriving DecidableEq

/-- The `config` construction of main.go lines 106-128: the composite
literal (Argv0 from `filepath.Base`, the positional args, `Vars` starting
with the FS pair from the `-F` flag, the function table) followed by the
`-v` processing loop appending to `Vars`.  The `Stdin` field is never
assigned. -/
def buildConfig (argv0Path : String) (args : List String) (fieldSep : String)
    (vars : List String) : Except Fatal InterpCfg :=
  (buildVarsAux vars).map (fun extra =>
    { argv0 := baseName argv0Path
      args := args
      vars := "FS" :: fieldSep :: extra
      funcs := interpFuncNames
      stdin := none })

/-! ## Profiled execution phase (main.go lines 130-161)

Modelled as the ordered list of observable events `main` performs after a
successful parse.  Oracles (`Bool` flags / the execution result) stand for
the outcomes of the external calls. -/

/-- Observable events of the post-parse phase of `main`. -/
inductive Ev where
  /-- `os.Create(*cpuprofile)` is attempted. -/
  | createCPUFile
  /-- `pprof.StartCPUProfile` is attempted. -/
  | startCPU
  /-- `interp.ExecProgram` is called. -/
  | exec
  /-- `pprof.StopCPUProfile()` runs. -/
  | stopCPU
  /-- `os.Create(*memprofile)` is attempted. -/
  | createMemFile
  /-- `runtime.GC()` runs. -/
  | gc
  /-- `pprof.WriteHeapProfile` is attempted. -/
  | writeHeap
  /-- The process exits with the given code. -/
  | exit (code : Int)
deriving DecidableEq

/-- The heap-profile block (main.go lines 149-159) followed by
`os.Exit(status)`: create the profile file (failure exits 1), force a GC,
attempt the heap write (failure exits 1), then exit with the interpreter's
status. -/
def memPhase (status : Int) (mem memCreateOk memWriteOk : Bool) : List Ev :=
  if mem then
    if !memCreateOk then [.createMemFile, .exit 1]
    else if !memWriteOk then [.createMemFile, .gc, .writeHeap, .exit 1]
    else [.createMemFile, .gc, .writeHeap, .exit status]
  else [.exit status]

/-- The post-parse phase of `main` (lines 130-161): optional CPU-profile
setup (create then start, each failure exiting 1), the execution call, the
error check that exits 1 on an execution error, the conditional
`StopCPUProfile`, the heap-profile block, and the final `os.Exit(status)`.
`execResult` is `.error ()` for a failed execution and `.ok status`
otherwise. -/
def runProfiled (cpu mem cpuCreateOk cpuStartOk : Bool)
    (execResult : Except Unit Int) (memCreateOk memWriteOk : Bool) : List Ev :=
  if cpu && !cpuCreateOk then [.createCPUFile, .exit 1]
  else if cpu && !cpuStartOk then [.createCPUFile, .startCPU, .exit 1]
  else
    (if cpu then [.createCPUFile, .startCPU] else []) ++ [.exec] ++
    match execResult with
    | .error _ => [.exit 1]
    | .ok status =>
      (if cpu then [.stopCPU] else []) ++
      memPhase status mem memCreateOk memWriteOk

/-! ## Parse-error reporter (`showSourceLine`, main.go lines 173-187) -/

/-- `bytes.Split(src, []byte{10})`: split a byte string on newline bytes.
Splitting the empty string yields one empty line, matching Go. -/
def splitOnNL : List Nat → List (List Nat)
  | [] => [[]]
  | b :: rest =>
    if b = 10 then [] :: splitOnNL rest
    else
      match splitOnNL rest with
      | [] => [[b]]
      | l :: ls => (b :: l) :: ls

/-- `strings.Replace(srcLine, "\t", "    ", -1)`: every tab byte becomes
four space bytes. -/
def expandTabs (l : List Nat) : List Nat :=
  l.flatMap (fun b => if b = 9 then [32, 32, 32, 32] else [b])

/-- Is `c` a valid UTF-8 continuation byte (0x80..0xBF)? -/
def contOK (c : Nat) : Bool := 0x80 ≤ c && c ≤ 0xBF

/-- Lower bound Go's utf8 decoder accepts for the second byte of a sequence
starting with `b` (restricting 0xE0/0xF0 sequences to reject overlong
encodings). -/
def secondLo (b : Nat) : Nat :=
  if b = 0xE0 then 0xA0 else if b = 0xF0 then 0x90 else 0x80

/-- Upper bound Go's utf8 decoder accepts for the second byte of a sequence
starting with `b` (restricting 0xED/0xF4 sequences to reject surrogates and
values above U+10FFFF). -/
def secondHi (b : Nat) : Nat :=
  if b = 0xED then 0x9F else if b = 0xF4 then 0x8F else 0xBF

/-- Is `c` acceptable as the second byte of a UTF-8 sequence whose first
byte is `b`? -/
def secondOK (b c : Nat) : Bool := secondLo b ≤ c && c ≤ secondHi b

/-- How many continuation bytes Go's utf8 decoder consumes after a first
byte `b` followed by `rest`: 1-3 for a complete valid multi-byte sequence,
otherwise 0 (ASCII, invalid first byte, truncated input, or an
out-of-range continuation byte all make the decoder advance by one). -/
def extraBytes (b : Nat) (rest : List Nat) : Nat :=
  if b < 0xC2 then 0
  else if b < 0xE0 then
    match rest with
    | c1 :: _ => if secondOK b c1 then 1 else 0
    | _ => 0
  else if b < 0xF0 then
    match rest with
    | c1 :: c2 :: _ => if secondOK b c1 && contOK c2 then 2 else 0
    | _ => 0
  else if b < 0xF5 then
    match rest with
    | c1 :: c2 :: c3 :: _ =>
      if secondOK b c1 && contOK c2 && contOK c3 then 3 else 0
    | _ => 0
  else 0

/-- Fuelled rune counter: one unit of fuel per decoded rune.  Every step
consumes at least one byte, so fuel equal to the byte count never runs out;
the fuel argument only makes the recursion structural (and hence
kernel-computable). -/
def runeCountFuel : Nat → List Nat → Nat
  | 0, _ => 0
  | _, [] => 0
  | fuel + 1, b :: rest => runeCountFuel fuel (rest.drop (extraBytes b rest)) + 1

/-- `utf8.RuneCountInString`: the number of runes in a byte string, where
every invalid or truncated sequence counts one rune per leading byte, as in
Go's decoder. -/
def runeCount (l : List Nat) : Nat := runeCountFuel l.length l

/-- The source line `showSourceLine` selects: `lines[pos.Line-1]` of the
newline-split source (total version, defaulting to the empty line when the
index is out of range; `showSourceLine` itself guards the access). -/
def lineAt (src : List Nat) (line : Int) : List Nat :=
  (splitOnNL src).getD (line - 1).toNat []

/-- The byte prefix `srcLine[:pos.Column-1]` of the selected line (total
version; `showSourceLine` itself guards the slice). -/
def caretPfx (src : List Nat) (line col : Int) : List Nat :=
  (lineAt src line).take (col - 1).toNat

/-- `showSourceLine(src, pos, dividerLen)`: the lines printed to stderr, or
`none` when Go would panic with an out-of-range index.  The two guards model
Go's bounds checks on `lines[pos.Line-1]` and `srcLine[:pos.Column-1]`
(`pos.Line` and `pos.Column` are Go `int`s, hence `Int` here).  On success
the output is: the dash divider when `dividerLen` is non-zero, the selected
line with tabs expanded to four spaces, the caret line (`runeColumn` spaces,
three more spaces per tab in the sliced prefix, then `^`), and the divider
again. -/
def showSourceLine (src : List Nat) (line col : Int) (dividerLen : Nat) :
    Option (List (List Nat)) :=
  if 0 ≤ line - 1 ∧ line - 1 < ((splitOnNL src).length : Int) then
    if 0 ≤ col - 1 ∧ col - 1 ≤ ((lineAt src line).length : Int) then
      some ((if dividerLen ≠ 0 then [List.replicate dividerLen 45] else []) ++
        [expandTabs (lineAt src line),
         List.replicate (runeCount (caretPfx src line col)) 32 ++
           List.replicate (3 * (caretPfx src line col).count 9) 32 ++ [94]] ++
        (if dividerLen ≠ 0 then [List.replicate dividerLen 45] else []))
    else none
  else none

/-- The parse-error path of `main` (lines 96-101): the divider length passed
to `showSourceLine` is the byte length of the rendered error message. -/
def renderParseDiagnostic (src : List Nat) (line col : Int) (msg : List Nat) :
    Option (List (List Nat)) :=
  showSourceLine src line col msg.length

/-! ## Helper lemmas -/

theorem assembleSource_map_some (frags : List (List Nat)) :
    assembleSource (frags.map some) =
      some ((frags.map (fun f => f ++ [10])).flatten) := by
  induction frags with
  | nil => rfl
  | cons f rest ih => simp [assembleSource, ih]

theorem buildVarsAux_all_wellformed (vars : List String)
    (h : ∀ v ∈ vars, (splitN2 (strChars v)).length = 2) :
    buildVarsAux vars =
      .ok (vars.flatMap (fun v => (splitN2 (strChars v)).map String.mk)) := by
  induction vars with
  | nil => rfl
  | cons v rest ih =>
    have h2 := h v (by simp)
    obtain ⟨n, val, hnv⟩ : ∃ n val, splitN2 (strChars v) = [n, val] := by
      cases hs : splitN2 (strChars v) with
      | nil => simp [hs] at h2
      | cons x xs =>
        cases xs with
        | nil => simp [hs] at h2
        | cons y ys =>
          cases ys with
          | nil => exact ⟨x, y, rfl⟩
          | cons z zs => simp [hs] at h2
    have ih2 := ih (fun w hw => h w (List.mem_cons_of_mem _ hw))
    simp [buildVarsAux, hnv, ih2, Except.map]

/-! ## Claim theorems -/

/-- C3: for every list of at least one program-file fragment whose reads all
succeed, the assembled ProgramSource is the concatenation of each fragment's
bytes each followed by exactly one newline byte (even when a fragment
already ends in a newline). -/
theorem assembled_source_concats_fragments_with_newlines
    (frags : List (List Nat)) (args : List String) (hN : 1 ≤ frags.length) :
    selectSource (frags.map some) args =
      some ((frags.map (fun f => f ++ [10])).flatten, args) := by
  unfold selectSource
  rw [if_pos (by simpa using hN), assembleSource_map_some]
  rfl

/-- Witness for C3, with the second fragment already ending in a newline:
`["a\n", "b"]` assembles to `"a\n\nb\n"`. -/
theorem assembled_source_concats_fragments_with_newlines_witness :
    1 ≤ [bs "a\n", bs "b"].length ∧
    selectSource [some (bs "a\n"), some (bs "b")] [] =
      some (bs "a\n\nb\n", []) := by
  refine ⟨by decide, ?_⟩
  exact (assembled_source_concats_fragments_with_newlines
    [bs "a\n", bs "b"] [] (by decide)).trans (by decide)

/-- C8: with no `-f` program files and at least one positional argument, the
ProgramSource is exactly the bytes of the first positional argument (no
newline added) and the remaining positional arguments become the AWK
program's arguments in the execution configuration. -/
theorem inline_program_taken_verbatim (a : String) (rest : List String) :
    selectSource [] (a :: rest) = some (bs a, rest) ∧
    ∀ argv0 fs vars cfg, buildConfig argv0 rest fs vars = .ok cfg →
      cfg.args = rest := by
  refine ⟨rfl, ?_⟩
  intro argv0 fs vars cfg h
  unfold buildConfig at h
  cases hv : buildVarsAux vars with
  | ok extra => rw [hv] at h; simp [Except.map] at h; rw [← h]
  | error e => rw [hv] at h; simp [Except.map] at h

/-- Witness for C8: program text `"1"` with one following argument. -/
theorem inline_program_taken_verbatim_witness :
    selectSource [] ["1", "f1"] = some (bs "1", ["f1"]) ∧
    InterpCfg.args
      { argv0 := "tawk", args := ["f1"], vars := ["FS", " "],
        funcs := interpFuncNames, stdin := none } = ["f1"] :=
  ⟨(inline_program_taken_verbatim "1" ["f1"]).1,
   (inline_program_taken_verbatim "1" ["f1"]).2 "tawk" " " [] _ (by decide)⟩

/-- C5: the execution-time pre-assignment list begins with the pair
`("FS", fieldSep)` (the `-F` flag's value, default a single space) followed
by every well-formed `-v` name=value pair in command-line order. -/
theorem vars_begin_with_fs_then_assignments_in_order
    (argv0 : String) (args : List String) (fs : String) (vars : List String)
    (h : ∀ v ∈ vars, (splitN2 (strChars v)).length = 2) :
    buildConfig argv0 args fs vars =
      .ok { argv0 := baseName argv0, args := args,
            vars :=
              "FS" :: fs ::
                vars.flatMap (fun v => (splitN2 (strChars v)).map String.mk),
            funcs := interpFuncNames, stdin := none } := by
  unfold buildConfig
  rw [buildVarsAux_all_wellformed vars h]
  rfl

/-- Witness for C5: the claim's example flags `[A=1, FS=",", A=2]` yield the
pre-assignment order FS (from `-F`), A=1, FS=",", A=2. -/
theorem vars_begin_with_fs_then_assignments_in_order_witness :
    (∀ v ∈ ["A=1", "FS=,", "A=2"], (splitN2 (strChars v)).length = 2) ∧
    buildConfig "tawk" [] " " ["A=1", "FS=,", "A=2"] =
      .ok { argv0 := "tawk", args := [],
            vars := ["FS", " ", "A", "1", "FS", ",", "A", "2"],
            funcs := interpFuncNames, stdin := none } := by
  refine ⟨by decide, ?_⟩
  exact (vars_begin_with_fs_then_assignments_in_order
    "tawk" [] " " ["A=1", "FS=,", "A=2"] (by decide)).trans (by decide)

/-- C9: the built-in function table of the parse-time configuration and the
one of the execution-time configuration have identical name sets. -/
theorem parser_and_interp_func_names_agree
    (dt : Bool) (argv0 : String) (args : List String) (fs : String)
    (vars : List String) (cfg : InterpCfg)
    (h : buildConfig argv0 args fs vars = .ok cfg) :
    ∀ n, n ∈ cfg.funcs ↔ n ∈ (mkParserConfig dt).funcs := by
  have hf : cfg.funcs = interpFuncNames := by
    unfold buildConfig at h
    cases hv : buildVarsAux vars with
    | ok extra => rw [hv] at h; simp [Except.map] at h; rw [← h]
    | error e => rw [hv] at h; simp [Except.map] at h
  intro n
  rw [hf]
  simp [mkParserConfig, parserFuncNames, interpFuncNames]

/-- Witness for C9: a concrete invocation whose two configurations share the
name `sum`, with the full name lists equal as sets. -/
theorem parser_and_interp_func_names_agree_witness :
    buildConfig "tawk" [] " " [] =
      .ok { argv0 := "tawk", args := [], vars := ["FS", " "],
            funcs := interpFuncNames, stdin := none } ∧
    ("sum" ∈ InterpCfg.funcs
        { argv0 := "tawk", args := [], vars := ["FS", " "],
          funcs := interpFuncNames, stdin := none } ↔
      "sum" ∈ (mkParserConfig false).funcs) :=
  ⟨by decide,
   parser_and_interp_func_names_agree false "tawk" [] " " [] _ (by decide) "sum"⟩

/-- C6 counterexample: for an invocation supplying the input-file path
`input.txt` (a positional argument after the program text), the driver's
execution configuration carries the path untouched in `args` and leaves the
standard-input override unset (`none`): no file is opened and no stream is
installed. -/
theorem no_stdin_override_cex :
    buildConfig "tawk" ["input.txt"] " " [] =
      .ok { argv0 := "tawk", args := ["input.txt"], vars := ["FS", " "],
            funcs := interpFuncNames, stdin := none } := by decide

/-- C6 (amended): the driver never installs an execution-time standard-input
stream; every successfully built execution configuration has an unset stdin
override and passes the positional arguments (including any input-file
paths) through unmodified for the external interpreter to open. -/
theorem no_stdin_override
    (argv0 : String) (args : List String) (fs : String) (vars : List String)
    (cfg : InterpCfg) (h : buildConfig argv0 args fs vars = .ok cfg) :
    cfg.stdin = none ∧ cfg.args = args := by
  unfold buildConfig at h
  cases hv : buildVarsAux vars with
  | ok extra =>
    rw [hv] at h; simp [Except.map] at h
    constructor
    · rw [← h]
    · rw [← h]
  | error e => rw [hv] at h; simp [Except.map] at h

/-- Witness for C6's amended theorem at the counterexample invocation. -/
theorem no_stdin_override_witness :
    InterpCfg.stdin
        { argv0 := "tawk", args := ["input.txt"], vars := ["FS", " "],
          funcs := interpFuncNames, stdin := none } = none ∧
    InterpCfg.args
        { argv0 := "tawk", args := ["input.txt"], vars := ["FS", " "],
          funcs := interpFuncNames, stdin := none } = ["input.txt"] :=
  no_stdin_override "tawk" ["input.txt"] " " [] _ (by decide)

theorem splitN2_no_eq (l : List Char) (h : '=' ∉ l) : splitN2 l = [l] := by
  induction l with
  | nil => rfl
  | cons c rest ih =>
    have hc : ¬ c = '=' := fun e => h (by simp [e])
    have hr : '=' ∉ rest := fun m => h (List.mem_cons_of_mem _ m)
    simp [splitN2, hc, ih hr]

theorem splitN2_with_eq (l : List Char) (h : '=' ∈ l) :
    ∃ a b, splitN2 l = [a, b] ∧ l = a ++ '=' :: b ∧ '=' ∉ a := by
  induction l with
  | nil => simp at h
  | cons c rest ih =>
    by_cases hc : c = '='
    · exact ⟨[], rest, by simp [splitN2, hc], by simp [hc], by simp⟩
    · have hr : '=' ∈ rest := by
        rcases List.mem_cons.mp h with h1 | h2
        · exact absurd h1.symm hc
        · exact h2
      obtain ⟨a, b, hs, he, hna⟩ := ih hr
      refine ⟨c :: a, b, by simp [splitN2, hc, hs], by simp [he], ?_⟩
      intro m
      rcases List.mem_cons.mp m with h1 | h2
      · exact hc h1.symm
      · exact hna h2

/-- C7 counterexample: the `-v` value `abc` (no `=`) makes the driver fail,
but the failure message is `-v flag must be in format name=value`, not the
claim's `must be in format name=value`. -/
theorem vflag_message_cex :
    buildVarsAux ["abc"] =
      .error ⟨"-v flag must be in format name=value", 1⟩ ∧
    "-v flag must be in format name=value" ≠ "must be in format name=value" :=
  ⟨by decide, by decide⟩

/-- C7 (amended): a `-v` value without `=` aborts the variable loop with the
message `-v flag must be in format name=value` and exit code 1; a value
containing `=` is split into exactly two parts at the first `=` (so the
value part may itself contain `=`) and contributes the pair (name, value). -/
theorem vflag_split_behavior (v : String) (rest : List String) :
    ('=' ∉ strChars v →
      buildVarsAux (v :: rest) =
        .error ⟨"-v flag must be in format name=value", 1⟩) ∧
    ('=' ∈ strChars v →
      ∃ name value, splitN2 (strChars v) = [name, value] ∧
        strChars v = name ++ '=' :: value ∧ '=' ∉ name ∧
        buildVarsAux (v :: rest) =
          (buildVarsAux rest).map
            (fun r => String.mk name :: String.mk value :: r)) := by
  constructor
  · intro h
    simp [buildVarsAux, splitN2_no_eq (strChars v) h, errorExit]
  · intro h
    obtain ⟨a, b, hs, he, hna⟩ := splitN2_with_eq (strChars v) h
    exact ⟨a, b, hs, he, hna, by simp [buildVarsAux, hs]⟩

/-- Witness for C7's amended theorem: `abc` aborts with the exact message
and exit code 1, and `a=b=c` splits into `a` and `b=c`. -/
theorem vflag_split_behavior_witness :
    buildVarsAux ["abc"] =
      .error ⟨"-v flag must be in format name=value", 1⟩ ∧
    splitN2 (strChars "a=b=c") = [strChars "a", strChars "b=c"] :=
  ⟨(vflag_split_behavior "abc" []).1 (by decide), by decide⟩

/-- C1 counterexample: with a CPU-profile destination configured, file
creation and sampling start both successful, and no heap profile requested,
a failed execution makes the driver exit with code 1 directly; sampling is
never stopped. -/
theorem cpu_stop_skipped_on_exec_error_cex :
    runProfiled true false true true (.error ()) true true =
      [.createCPUFile, .startCPU, .exec, .exit 1] ∧
    Ev.stopCPU ∉ runProfiled true false true true (.error ()) true true := by
  exact ⟨by decide, by decide⟩

/-- C1 (amended): with a CPU-profile destination configured and sampling
successfully started, sampling is stopped immediately after the execution
call only when execution succeeds (before the driver exits with the
execution status); when execution fails the driver exits with code 1
without stopping sampling. -/
theorem cpu_stop_after_success_only (mem mco mwo : Bool) (status : Int) :
    runProfiled true mem true true (.ok status) mco mwo =
      [.createCPUFile, .startCPU, .exec, .stopCPU] ++
        memPhase status mem mco mwo ∧
    runProfiled true mem true true (.error ()) mco mwo =
      [.createCPUFile, .startCPU, .exec, .exit 1] ∧
    Ev.stopCPU ∉ runProfiled true mem true true (.error ()) mco mwo := by
  refine ⟨by simp [runProfiled], by simp [runProfiled], ?_⟩
  simp [runProfiled]

/-- C2 counterexample: with a heap-profile destination configured (and no
CPU profile), a failed execution makes the driver exit with code 1 directly;
no garbage collection is forced and no heap snapshot is written. -/
theorem heap_profile_skipped_on_exec_error_cex :
    runProfiled false true true true (.error ()) true true = [.exec, .exit 1] ∧
    Ev.gc ∉ runProfiled false true true true (.error ()) true true ∧
    Ev.writeHeap ∉ runProfiled false true true true (.error ()) true true := by
  exact ⟨by decide, by decide, by decide⟩

/-- C2 (amended): with a heap-profile destination configured, only when the
execution call returns successfully (and the profile file is created) does
the driver force a garbage-collection pass and then write the heap snapshot,
after execution and after the optional CPU-sampling stop; when execution
fails the process exits with code 1 without the collection pass or the
write. -/
theorem heap_profile_after_success_only (cpu mwo : Bool) (status : Int) :
    runProfiled cpu true true true (.ok status) true mwo =
      (if cpu then [.createCPUFile, .startCPU] else []) ++ [.exec] ++
        (if cpu then [.stopCPU] else []) ++
        [.createMemFile, .gc, .writeHeap,
         .exit (if mwo then status else 1)] ∧
    Ev.gc ∉ runProfiled cpu true true true (.error ()) true mwo ∧
    Ev.writeHeap ∉ runProfiled cpu true true true (.error ()) true mwo := by
  refine ⟨?_, ?_, ?_⟩
  · cases cpu <;> cases mwo <;> simp [runProfiled, memPhase]
  · cases cpu <;> simp [runProfiled]
  · cases cpu <;> simp [runProfiled]

/-- C4: for every source buffer, error message and in-bounds position, the
rendered diagnostic is: a divider of dashes exactly as long as the message
(omitted when the message is empty), the selected source line with every
tab replaced by four spaces, a caret line of `runeColumn` spaces (the rune
count of the line's first `Column - 1` bytes) then three spaces per tab in
those bytes then one caret, and the divider again. -/
theorem parse_diagnostic_format (src msg : List Nat) (line col : Int)
    (hl : 1 ≤ line ∧ line ≤ ((splitOnNL src).length : Int))
    (hc : 1 ≤ col ∧ col ≤ ((lineAt src line).length : Int) + 1) :
    renderParseDiagnostic src line col msg =
      some ((if msg.length ≠ 0 then [List.replicate msg.length 45] else []) ++
        [expandTabs (lineAt src line),
         List.replicate (runeCount (caretPfx src line col)) 32 ++
           List.replicate (3 * (caretPfx src line col).count 9) 32 ++ [94]] ++
        (if msg.length ≠ 0 then [List.replicate msg.length 45] else [])) := by
  have h1 : 0 ≤ line - 1 ∧ line - 1 < ((splitOnNL src).length : Int) :=
    ⟨by omega, by omega⟩
  have h2 : 0 ≤ col - 1 ∧ col - 1 ≤ ((lineAt src line).length : Int) :=
    ⟨by omega, by omega⟩
  unfold renderParseDiagnostic showSourceLine
  rw [if_pos h1, if_pos h2]

/-- Witness for C4: the claim's example, source `BEGIN \x7b x*; \x7d` at
line 1, column 11 with the three-byte message `err`: a three-dash divider,
the source line unchanged (no tabs), and a caret line of exactly ten spaces
followed by one caret, then the divider again. -/
theorem parse_diagnostic_format_witness :
    renderParseDiagnostic (bs "BEGIN \x7b x*; \x7d") 1 11 (bs "err") =
      some [[45, 45, 45], bs "BEGIN \x7b x*; \x7d",
        List.replicate 10 32 ++ [94], [45, 45, 45]] :=
  (parse_diagnostic_format (bs "BEGIN \x7b x*; \x7d") (bs "err") 1 11
    (by decide) (by decide)).trans (by decide)

/-- C10: `showSourceLine` performs its line indexing and byte slicing
without bounds checks, so it stays in range exactly when `1 ≤ Line ≤` the
number of lines obtained by splitting the source on newline bytes and
`1 ≤ Column ≤` the selected line's byte length plus one; any position
outside that range makes the access go out of range (`none`, a Go panic). -/
theorem showSourceLine_in_bounds_iff (src : List Nat) (line col : Int) (d : Nat) :
    (showSourceLine src line col d).isSome = true ↔
      (1 ≤ line ∧ line ≤ ((splitOnNL src).length : Int) ∧
       1 ≤ col ∧ col ≤ ((lineAt src line).length : Int) + 1) := by
  unfold showSourceLine
  by_cases h1 : 0 ≤ line - 1 ∧ line - 1 < ((splitOnNL src).length : Int)
  · by_cases h2 : 0 ≤ col - 1 ∧ col - 1 ≤ ((lineAt src line).length : Int)
    · rw [if_pos h1, if_pos h2]
      simp only [Option.isSome_some, true_iff]
      omega
    · rw [if_pos h1, if_neg h2]
      simp only [Option.isSome_none, Bool.false_eq_true, false_iff]
      omega
  · rw [if_neg h1]
    simp only [Option.isSome_none, Bool.false_eq_true, false_iff]
    omega
